import Mathlib

/-! Spectron: the ChromeDriver supervisor and the launcher.

A shallow embedding of `lib/chrome-driver.js` and `lib/launcher.js`.

The supervisor object and the parts of the outside world it touches (the
listeners of the process-wide `exit` event, the children it spawned, the
children it killed, the files it appended to, the promises it handed out)
are one record, `State`, and every method is a function on it.  Asynchronous
callbacks (a line arriving on a child's output, the status request of a poll
coming back) are functions too; their arguments are what the environment
supplies at that moment (the line, the clock, the reply).
-/

namespace Spectron

/-! ## JavaScript objects with string keys -/

/-- A JavaScript object whose values are strings, in insertion order. -/
abbrev Obj := List (String × String)

/-- An own property `k` is given the value `v`: overwritten in place, or
appended as a new key. -/
def Obj.store : Obj → String → String → Obj
  | [], k, v => [(k, v)]
  | (k', v') :: o, k, v => if k' = k then (k', v) :: o else (k', v') :: Obj.store o k v

/-- The assignment `o[k] = v` on a plain object `{}` with a string `v`.  The key
`__proto__` is the accessor inherited from `Object.prototype`, whose setter
ignores a string: nothing is stored.  Every other key becomes an own property. -/
def Obj.set (o : Obj) (k v : String) : Obj :=
  if k = "__proto__" then o else Obj.store o k v

/-- The own property `k` of `o`; `none` when `o` has no such key. -/
def Obj.get (o : Obj) (k : String) : Option String :=
  match o with
  | [] => none
  | (k', v') :: o => if k' = k then some v' else Obj.get o k

/-- The own keys, `Object.keys(o)`. -/
def Obj.keys (o : Obj) : List String := o.map Prod.fst

/-! ## The hosting Node process -/

/-- What the module reads from the Node process it runs in. -/
structure Runtime where
  /-- The parent environment, `process.env`. -/
  env : Obj
  /-- The host platform, `process.platform`. -/
  platform : String
  /-- The interpreter's executable, `process.execPath`. -/
  execPath : String
  /-- The value of `path.join(__dirname, 'launcher.js')`. -/
  launcherPath : String

/-- One call of `ChildProcess.spawn(command, args, {cwd, env})`. -/
structure Spawn where
  command : String
  args : List String
  cwd : String
  env : Obj
deriving DecidableEq

/-- The promise returned by one `waitUntilRunning()`. -/
inductive Promise where
  /-- Not settled; `startTime` is the `Date.now()` read when it was created. -/
  | pending (startTime : Nat)
  | fulfilled
  | rejected (message : String)
deriving DecidableEq

/-- The supervisor object together with the world it acts on. -/
structure State where
  -- configuration, set by the constructor
  port : Nat
  nodePath : String
  startTimeout : Nat
  workingDirectory : String
  /-- The configured log path; `none` is `undefined`. -/
  chromeDriverLogPath : Option String
  /-- The resolved `electron-chromedriver/chromedriver` module. -/
  path : String
  urlBase : String
  statusUrl : String
  -- fields of the object that change
  logLines : List String
  /-- The handle `this.process`, the index of the child in `spawned`. -/
  process : Option Nat
  /-- The closure `this.exitHandler`, named by the child it was made for. -/
  exitHandler : Option Nat
  exodusLogPath : Option String
  -- the world
  /-- The closures this object has registered on the `exit` event of the
  Node process, oldest first. -/
  exitListeners : List Nat
  /-- Every child spawned so far, oldest first. -/
  spawned : List Spawn
  /-- The children `kill()` was called on. -/
  killed : List Nat
  /-- The `lineCount` of the `data` listener attached to each child's output. -/
  lineCounts : List Nat
  /-- The appends made by `fs.outputFileSync(path, data, { flag: 'a' })`. -/
  appended : List (String × String)
  /-- The promises returned by `start()`, oldest first. -/
  promises : List Promise
deriving DecidableEq

/-- The constructor `new ChromeDriver(host, port, nodePath, startTimeout,
workingDirectory, chromeDriverLogPath)`; `path` is what `require.resolve`
returns. -/
def ChromeDriver (host : String) (port : Nat) (nodePath : String) (startTimeout : Nat)
    (workingDirectory : String) (chromeDriverLogPath : Option String) (path : String) : State :=
  { port := port
    nodePath := nodePath
    startTimeout := startTimeout
    workingDirectory := workingDirectory
    chromeDriverLogPath := chromeDriverLogPath
    path := path
    urlBase := "/"
    statusUrl := "http://" ++ host ++ ":" ++ toString port ++ "/" ++ "status"
    logLines := []
    process := none
    exitHandler := none
    exodusLogPath := none
    exitListeners := []
    spawned := []
    killed := []
    lineCounts := []
    appended := []
    promises := [] }

/-- Truthiness of an optional string: `undefined` and `''` are falsy. -/
def truthy : Option String → Bool
  | none => false
  | some s => s != ""

/-! ## `getEnvironment` -/

/-- The method `getEnvironment`. -/
def getEnvironment (rt : Runtime) : Obj :=
  let env : Obj := (Obj.keys rt.env).foldl
    (fun env key =>
      match Obj.get rt.env key with
      | some v => Obj.set env key v
      | none => env) []
  if rt.platform = "win32" then
    Obj.set (Obj.set env "SPECTRON_NODE_PATH" rt.execPath) "SPECTRON_LAUNCHER_PATH" rt.launcherPath
  else env

/-! ## Logs -/

/-- The method `clearLogs`. -/
def clearLogs (s : State) : State := { s with logLines := [] }

/-- The method `getLogs`: a copy of the buffer. -/
def getLogs (s : State) : List String := s.logLines

/-- The number of leading lines the `data` listener drops. -/
def linesToIgnore : Nat := 2

/-- The method `setupLogs`, called with `this.process = some child`: the buffer
is reset and a `data` listener with its own `lineCount = 0` is attached to the
output of the child.  The child is the newest one, so its counter is appended. -/
def setupLogs (s : State) : State :=
  { s with logLines := [], lineCounts := s.lineCounts ++ [0] }

/-- The `data` listener attached by the call of `setupLogs` number `child`
(that of the child `child`), receiving `line`.  A child that was never spawned
has no listener.  `appendOk` tells whether `fs.outputFileSync` returns; when it
throws, the listener ends there, before the line is counted or retained. -/
def onData (child : Nat) (line : String) (appendOk : Bool) (s : State) : State :=
  match s.lineCounts.get? child with
  | none => s
  | some lineCount =>
    if truthy s.exodusLogPath && !appendOk then s
    else
      let s := if truthy s.exodusLogPath then
          { s with appended := s.appended ++ [(s.exodusLogPath.getD "", line ++ "\n")] }
        else s
      if lineCount < linesToIgnore then
        { s with lineCounts := s.lineCounts.set child (lineCount + 1) }
      else
        { s with logLines := s.logLines ++ [line] }

/-! ## `stop` -/

/-- The call `emitter.removeListener(name, h)`: the most recently added
instance of `h` is removed. -/
def removeListener (ls : List Nat) (h : Nat) : List Nat :=
  (ls.reverse.erase h).reverse

/-- The method `stop`. -/
def stop (s : State) : State :=
  let s := match s.exitHandler with
    | some h => { s with exitListeners := removeListener s.exitListeners h }
    | none => s
  let s := { s with exitHandler := none }
  let s := match s.process with
    | some child => { s with killed := s.killed ++ [child] }
    | none => s
  let s := { s with process := none }
  clearLogs s

/-! ## Paths (POSIX flavour of Node's `path` module) -/

/-- The last segment of a path, trailing slashes skipped. -/
def basenameChars (cs : List Char) : List Char :=
  ((cs.reverse.dropWhile (· = '/')).takeWhile (· ≠ '/')).reverse

/-- The call `path.basename(p)`. -/
def basename (p : String) : String := ⟨basenameChars p.data⟩

/-- The call `path.dirname(p)`: everything before the slash that precedes the
last segment; the first character is never that slash. -/
def dirnameChars : List Char → List Char
  | [] => ['.']
  | c :: body =>
    match (body.reverse.dropWhile (· = '/')).dropWhile (· ≠ '/') with
    | [] => if c = '/' then ['/'] else ['.']
    | _ :: r => if c = '/' ∧ r = [] then ['/', '/'] else c :: r.reverse

/-- The call `path.dirname(p)`. -/
def dirname (p : String) : String := ⟨dirnameChars p.data⟩

/-- The call `path.extname(p)`: from the last dot of the last segment to its
end; empty when there is no dot, when the dot opens the segment, and for `..`. -/
def extnameChars (cs : List Char) : List Char :=
  let base := basenameChars cs
  let afterDot := base.reverse.takeWhile (· ≠ '.')
  if afterDot.length = base.length then []
  else if base.length - afterDot.length - 1 = 0 then []
  else if base = ['.', '.'] then []
  else '.' :: afterDot.reverse

/-- The call `path.extname(p)`. -/
def extname (p : String) : String := ⟨extnameChars p.data⟩

/-- The expression `s.split('.')[0]`: what precedes the first dot. -/
def splitDotFirst (s : String) : String := ⟨s.data.takeWhile (· ≠ '.')⟩

/-- The call `path.format({ dir, name, ext })`. -/
def pathFormat (dir name ext : String) : String :=
  let base := name ++ ext
  if dir = "" then base else dir ++ "/" ++ base

/-- The raw-capture path `start()` derives from the configured log path. -/
def deriveExodusLogPath (chromeDriverLogPath : String) : String :=
  let dir := dirname chromeDriverLogPath
  let basename := splitDotFirst (basename chromeDriverLogPath)
  let ext := extname chromeDriverLogPath
  pathFormat dir (basename ++ "-exodus") ext

/-! ## `start` and the readiness poll -/

/-- The method `start`, called when the clock reads `now`.  A thrown error is
`Except.error` with the message of the error; nothing has changed by then. -/
def start (rt : Runtime) (now : Nat) (s : State) : Except String State :=
  if s.process.isSome then Except.error "ChromeDriver already started"
  else
    let args := [s.path, "--port=" ++ toString s.port, "--url-base=" ++ s.urlBase]
    let args := if truthy s.chromeDriverLogPath then
        args ++ ["--verbose", "--log-path=" ++ s.chromeDriverLogPath.getD ""]
      else args
    let s := if truthy s.chromeDriverLogPath then
        { s with exodusLogPath := some (deriveExodusLogPath (s.chromeDriverLogPath.getD "")) }
      else s
    let child := s.spawned.length
    let s := { s with
      spawned := s.spawned ++ [Spawn.mk s.nodePath args s.workingDirectory (getEnvironment rt)]
      process := some child }
    let s := { s with exitHandler := some child, exitListeners := s.exitListeners ++ [child] }
    let s := setupLogs s
    Except.ok { s with promises := s.promises ++ [Promise.pending now] }

/-- What the status request of `isRunning` came back with. -/
inductive StatusReply where
  /-- The request or the decoding failed. -/
  | failure
  /-- A body without a truthy `value`. -/
  | noValue
  /-- A body with a `value`; `ready` is the truthiness of `value.ready`. -/
  | value (ready : Bool)
deriving DecidableEq

/-- The method `isRunning`: the truthiness of what the callback is given. -/
def isRunning : StatusReply → Bool
  | StatusReply.failure => false
  | StatusReply.noValue => false
  | StatusReply.value ready => ready

/-- The decision of one run of the callback in `checkIfRunning`. -/
inductive Check where
  | resolve
  | reject (message : String)
  /-- The call `global.setTimeout(checkIfRunning, 100)`. -/
  | again
deriving DecidableEq

/-- The message of the error of a cleared handle. -/
def stoppedMessage : String := "ChromeDriver has been stopped"

/-- The message of the error of an exceeded `startTimeout`. -/
def timeoutMessage (startTimeout : Nat) : String :=
  "ChromeDriver did not start within " ++ toString startTimeout ++ "ms"

/-- The callback given to `isRunning` inside `checkIfRunning`, for the promise
created at `startTime`, run when the clock reads `now`. -/
def checkIfRunning (s : State) (startTime now : Nat) (running : Bool) : Check :=
  if s.process.isNone then Check.reject stoppedMessage
  else if running then Check.resolve
  else
    let elapsedTime := now - startTime
    if elapsedTime > s.startTimeout then Check.reject (timeoutMessage s.startTimeout)
    else Check.again

/-- The status request of promise `i` comes back with `reply` when the clock
reads `now`.  A settled promise has no request under way. -/
def tick (i now : Nat) (reply : StatusReply) (s : State) : State :=
  match s.promises.get? i with
  | some (Promise.pending startTime) =>
    match checkIfRunning s startTime now (isRunning reply) with
    | Check.resolve => { s with promises := s.promises.set i Promise.fulfilled }
    | Check.reject message => { s with promises := s.promises.set i (Promise.rejected message) }
    | Check.again => s
  | _ => s

/-- The interval between the end of one check and the next request, in ms. -/
def pollInterval : Nat := 100

/-- The loop of `waitUntilRunning` from request number `k`, issued when the
clock reads `issued`: request `k` takes `latency k` ms (a timer that fires late
counts as time of the request it starts) and is answered with `reply k`, and
the callback then sees the supervisor in state `st k`.  The result is how the
promise settled and the clock at that moment; `none` when `fuel` callbacks did
not settle it. -/
def pollFrom (st : Nat → State) (reply : Nat → StatusReply) (latency : Nat → Nat)
    (startTime : Nat) : Nat → Nat → Nat → Option (Promise × Nat)
  | 0, _, _ => none
  | fuel + 1, k, issued =>
    let now := issued + latency k
    match checkIfRunning (st k) startTime now (isRunning (reply k)) with
    | Check.resolve => some (Promise.fulfilled, now)
    | Check.reject message => some (Promise.rejected message, now)
    | Check.again => pollFrom st reply latency startTime fuel (k + 1) (now + pollInterval)

/-- The method `waitUntilRunning`, called when the clock reads `startTime`:
the first request is issued at once. -/
def waitUntilRunning (st : Nat → State) (reply : Nat → StatusReply) (latency : Nat → Nat)
    (startTime fuel : Nat) : Option (Promise × Nat) :=
  pollFrom st reply latency startTime fuel 0 startTime

/-! ## The supervisor as a state machine -/

/-- What can happen to a supervisor: a method call, or a callback. -/
inductive Event where
  /-- The call `start()`, when the clock reads `now`. -/
  | start (rt : Runtime) (now : Nat)
  | stop
  | clearLogs
  /-- A line arrives on the output of `child`; `appendOk` tells whether the
  append to the raw-capture file, if one is made, succeeds. -/
  | line (child : Nat) (text : String) (appendOk : Bool)
  /-- The status request of promise `i` comes back. -/
  | tick (i now : Nat) (reply : StatusReply)

/-- One event.  A `start()` that throws changes nothing. -/
def step (s : State) : Event → State
  | Event.start rt now =>
    match start rt now s with
    | Except.ok s' => s'
    | Except.error _ => s
  | Event.stop => stop s
  | Event.clearLogs => clearLogs s
  | Event.line child text appendOk => onData child text appendOk s
  | Event.tick i now reply => tick i now reply s

/-- A sequence of events, in order. -/
def run (s : State) (events : List Event) : State := events.foldl step s

/-- An event that is a call of `start()`. -/
def Event.isStart : Event → Bool
  | Event.start _ _ => true
  | _ => false

/-- An event that is a callback of the poll of promise `i`. -/
def Event.isTick (i : Nat) : Event → Bool
  | Event.tick j _ _ => decide (j = i)
  | _ => false

/-! ## The launcher -/

/-- A JavaScript array of strings; `none` is a hole. -/
abbrev SparseArray := List (Option String)

/-- The assignment `a[i] = v` for an array index `i`; the array grows by
holes when `i` is past its end. -/
def SparseArray.assign (a : SparseArray) (i : Nat) (v : String) : SparseArray :=
  if i < a.length then a.set i (some v)
  else a ++ List.replicate (i - a.length) none ++ [some v]

/-- The element `a[i]`; a hole and an index past the end both read `none`. -/
def SparseArray.at (a : SparseArray) (i : Nat) : Option String := (a.get? i).join

/-- The split of `arg` at its first `=`: `arg.substring(0, indexOfEqualSign)`
and `arg.substring(indexOfEqualSign + 1)`; `none` when `indexOf` is `-1`. -/
def splitAtEqualSign : List Char → Option (List Char × List Char)
  | [] => none
  | c :: cs =>
    if c = '=' then some ([], cs)
    else match splitAtEqualSign cs with
      | some (name, value) => some (c :: name, value)
      | none => none

/-- The test `name.indexOf(p) === 0`. -/
def startsWith (name : List Char) (p : String) : Bool := p.data.isPrefixOf name

/-- The UTF-16 code units of a text, the elements a JavaScript string is
indexed by: one for a character below `0x10000`, else a surrogate pair. -/
def utf16 : List Char → List Nat
  | [] => []
  | c :: cs =>
    if c.toNat < 0x10000 then c.toNat :: utf16 cs
    else (0xD800 + (c.toNat - 0x10000) / 0x400) :: (0xDC00 + (c.toNat - 0x10000) % 0x400)
      :: utf16 cs

/-- The variables of the launcher script and the effects of its loop. -/
structure Launcher where
  executablePath : Option String
  appArgs : SparseArray
  chromeArgs : List String
  /-- The assignments `process.env[key] = value` made, oldest first; a key is
  given by its UTF-16 code units. -/
  envAssigned : List (List Nat × String)
  /-- The paths given to `fs.ensureFileSync`. -/
  ensured : List String
deriving DecidableEq

/-- The number a run of decimal digits denotes. -/
def decimalValue (digits : List Char) : Nat :=
  digits.foldl (fun n c => 10 * n + (c.toNat - '0'.toNat)) 0

/-- The element that `appArgs[Number(text)] = value` assigns: the array index
`Number(text)` denotes, or `none` when it denotes none (the assignment then
sets a property that is no element).  On a run of decimal digits `Number` is
the number the digits denote, `0` for the empty run, and it is an array index
when it is below `2^32 - 1`.  On every other text (a sign, a fraction, an
exponent, a radix, white space) the answer of `Number` is `other text`. -/
def toArrayIndex (other : String → Option Nat) (text : String) : Option Nat :=
  if text.data.all Char.isDigit then
    if decimalValue text.data < 4294967295 then some (decimalValue text.data) else none
  else other text

/-- The body of the `forEach` over the arguments; `other` is `Number` on the
texts that are no runs of decimal digits, see `toArrayIndex`. -/
def Launcher.forEach (other : String → Option Nat) (l : Launcher) (arg : String) : Launcher :=
  match splitAtEqualSign arg.data with
  | none => { l with chromeArgs := l.chromeArgs ++ [arg] }
  | some (name, value) =>
    if name = "--spectron-path".data then
      { l with executablePath := some ⟨value⟩ }
    else if startsWith name "--spectron-arg" then
      match toArrayIndex other ⟨name.drop 14⟩ with
      | some i => { l with appArgs := l.appArgs.assign i ⟨value⟩ }
      | none => l
    else if startsWith name "--spectron-env" then
      { l with envAssigned := l.envAssigned ++ [((utf16 name).drop 15, ⟨value⟩)] }
    else if startsWith name "--spectron-create-file" then
      { l with ensured := l.ensured ++ [⟨value⟩] }
    else if !startsWith name "--spectron-" then
      { l with chromeArgs := l.chromeArgs ++ [arg] }
    else l

/-- The launcher before its loop. -/
def Launcher.init : Launcher :=
  { executablePath := none, appArgs := [], chromeArgs := [], envAssigned := [], ensured := [] }

/-- The loop over `process.argv.slice(2)`. -/
def Launcher.parse (other : String → Option Nat) (argv : List String) : Launcher :=
  (argv.drop 2).foldl (Launcher.forEach other) Launcher.init

/-- The value `appArgs.concat(chromeArgs)` handed to `ChildProcess.spawn`. -/
def Launcher.args (l : Launcher) : SparseArray := l.appArgs ++ l.chromeArgs.map some

/-! ## Definitions used in the statements -/

/-- The invariant of the exit handler: the registered closures are exactly the
one the object remembers, and it remembers one exactly while it has a handle. -/
def ExitInv (s : State) : Prop :=
  s.exitListeners = s.exitHandler.toList ∧ s.exitHandler = s.process

/-- The time the first `k` requests took. -/
def sumLatency (latency : Nat → Nat) (k : Nat) : Nat := ((List.range k).map latency).sum

/-- An argument the launcher hands on to the target: one without `=`, or one
whose name, the text before its first `=`, does not begin with `--spectron-`. -/
def passedThrough (arg : String) : Bool :=
  match splitAtEqualSign arg.data with
  | none => true
  | some (name, _) => !startsWith name "--spectron-"

/-- The value of an argument `--spectron-path=<value>`. -/
def pathValue (arg : String) : Option String :=
  match splitAtEqualSign arg.data with
  | none => none
  | some (name, value) => if name = "--spectron-path".data then some ⟨value⟩ else none

/-- The value of an argument `--spectron-arg<N>=<value>` whose `<N>` denotes
the array index `i`. -/
def argValueAt (other : String → Option Nat) (i : Nat) (arg : String) : Option String :=
  match splitAtEqualSign arg.data with
  | none => none
  | some (name, value) =>
    if startsWith name "--spectron-arg" = true ∧
        toArrayIndex other ⟨name.drop 14⟩ = some i then
      some ⟨value⟩
    else none

/-! ## Examples used below -/

/-- A supervisor for port 9515 with a start timeout of 200 ms and no log path. -/
def exampleDriver : State := ChromeDriver "127.0.0.1" 9515 "node" 200 "/work" none "chromedriver.js"

/-- A Linux host with one environment variable. -/
def exampleRuntime : Runtime :=
  { env := [("HOME", "/root")], platform := "linux", execPath := "/usr/bin/node",
    launcherPath := "/app/lib/launcher.js" }

/-- The example supervisor after `start()` at time 0. -/
def exampleStarted : State := step exampleDriver (Event.start exampleRuntime 0)

/-- A Windows host whose environment already defines `SPECTRON_NODE_PATH`. -/
def exampleWindows : Runtime :=
  { env := [("SPECTRON_NODE_PATH", "C:/old/node.exe")], platform := "win32",
    execPath := "C:/node/node.exe", launcherPath := "C:/app/lib/launcher.js" }

/-- The example supervisor started at time 0 whose first status request fails
and comes back after 500 ms, past the start timeout of 200 ms. -/
def exampleTimedOut : State :=
  run exampleDriver [Event.start exampleRuntime 0, Event.tick 0 500 StatusReply.failure]

/-- The example supervisor started, stopped, and started again at time 10,
while the promise of the first `start()` is still pending. -/
def exampleRestarted : State :=
  run exampleDriver [Event.start exampleRuntime 0, Event.stop, Event.start exampleRuntime 10]

/-- A supervisor with the log path `logs/chromedriver.log`. -/
def exampleLogged : State :=
  ChromeDriver "127.0.0.1" 9515 "node" 200 "/work" (some "logs/chromedriver.log")
    "chromedriver.js"

/-! ## Lemmas -/

theorem stoppedMessage_ne_timeoutMessage (T : Nat) : stoppedMessage ≠ timeoutMessage T := by
  intro h
  have h' := congrArg String.data h
  simp [stoppedMessage, timeoutMessage, String.data_append] at h'

theorem start_ok_of_idle (rt : Runtime) (now : Nat) (s : State) (h : s.process = none) :
    ∃ s', start rt now s = Except.ok s' ∧ s'.process = some s.spawned.length := by
  unfold start
  simp only [h, Option.isSome_none, Bool.false_eq_true, if_false]
  refine ⟨_, rfl, ?_⟩
  split <;> simp [setupLogs]

theorem removeListener_singleton (h : Nat) : removeListener [h] h = [] := by
  simp [removeListener]

theorem ExitInv_init (host : String) (port : Nat) (nodePath : String) (startTimeout : Nat)
    (workingDirectory : String) (chromeDriverLogPath : Option String) (path : String) :
    ExitInv (ChromeDriver host port nodePath startTimeout workingDirectory
      chromeDriverLogPath path) := by
  simp [ExitInv, ChromeDriver]

theorem ExitInv_stop (s : State) (h : ExitInv s) : ExitInv (stop s) := by
  obtain ⟨h1, h2⟩ := h
  unfold stop ExitInv
  cases he : s.exitHandler <;> cases hp : s.process <;>
    simp_all [clearLogs, removeListener]

theorem ExitInv_start (rt : Runtime) (now : Nat) (s s' : State) (h : ExitInv s)
    (hs : start rt now s = Except.ok s') : ExitInv s' := by
  obtain ⟨h1, h2⟩ := h
  unfold start at hs
  split at hs
  · cases hs
  · rename_i hp
    have hp' : s.process = none := by simpa using hp
    have he : s.exitHandler = none := by rw [h2, hp']
    injection hs with hs
    subst hs
    split <;> simp [ExitInv, setupLogs, h1, he]

theorem ExitInv_onData (child : Nat) (text : String) (appendOk : Bool) (s : State)
    (h : ExitInv s) : ExitInv (onData child text appendOk s) := by
  unfold onData
  split
  · exact h
  · split
    · exact h
    · dsimp only
      split <;> split <;> exact h

theorem ExitInv_tick (i now : Nat) (reply : StatusReply) (s : State) (h : ExitInv s) :
    ExitInv (tick i now reply s) := by
  unfold tick
  split
  · split <;> exact h
  · exact h

theorem ExitInv_step (s : State) (e : Event) (h : ExitInv s) : ExitInv (step s e) := by
  cases e with
  | start rt now =>
    simp only [step]
    split
    · rename_i s' hs
      exact ExitInv_start rt now s s' h hs
    · exact h
  | stop => exact ExitInv_stop s h
  | clearLogs => exact h
  | line child text appendOk => exact ExitInv_onData child text appendOk s h
  | tick i now reply => exact ExitInv_tick i now reply s h

theorem ExitInv_run (events : List Event) (s : State) (h : ExitInv s) :
    ExitInv (run s events) := by
  induction events generalizing s with
  | nil => exact h
  | cons e es ih => exact ih (step s e) (ExitInv_step s e h)

theorem stop_promises (s : State) : (stop s).promises = s.promises := by
  cases he : s.exitHandler <;> cases hp : s.process <;> simp [stop, clearLogs, he, hp]

theorem stop_process (s : State) : (stop s).process = none := by
  cases he : s.exitHandler <;> cases hp : s.process <;> simp [stop, clearLogs, he, hp]

theorem tick_process (i now : Nat) (reply : StatusReply) (s : State) :
    (tick i now reply s).process = s.process ∧
    (tick i now reply s).exitHandler = s.exitHandler ∧
    (tick i now reply s).exitListeners = s.exitListeners ∧
    (tick i now reply s).startTimeout = s.startTimeout ∧
    (tick i now reply s).spawned = s.spawned := by
  unfold tick
  split
  · split <;> simp
  · simp

/-- One line through the listener of `child` when the append does not throw. -/
theorem onData_ok (child : Nat) (line : String) (appendOk : Bool) (s : State) (n : Nat)
    (hn : s.lineCounts.get? child = some n)
    (hok : truthy s.exodusLogPath = false ∨ appendOk = true) :
    (onData child line appendOk s).exodusLogPath = s.exodusLogPath ∧
    (onData child line appendOk s).lineCounts.get? child
      = some (if n < linesToIgnore then n + 1 else n) ∧
    (onData child line appendOk s).logLines
      = (if n < linesToIgnore then s.logLines else s.logLines ++ [line]) := by
  have hlen : child < s.lineCounts.length := by
    rcases List.get?_eq_some.mp hn with ⟨hl, _⟩
    exact hl
  have hthrow : (truthy s.exodusLogPath && !appendOk) = false := by
    rcases hok with h | h <;> simp [h]
  unfold onData
  rw [hn]
  dsimp only
  rw [hthrow]
  by_cases hlt : n < linesToIgnore
  · simp only [Bool.false_eq_true, if_false, if_pos hlt]
    split <;> simp [hlen]
  · have hn' : s.lineCounts[child]? = some n := by simpa using hn
    simp only [Bool.false_eq_true, if_false, if_neg hlt]
    split <;> simp [hn']

theorem onData_process (child : Nat) (line : String) (appendOk : Bool) (s : State) :
    (onData child line appendOk s).process = s.process ∧
    (onData child line appendOk s).promises = s.promises := by
  unfold onData
  split
  · exact ⟨rfl, rfl⟩
  · split
    · exact ⟨rfl, rfl⟩
    · dsimp only
      split <;> split <;> exact ⟨rfl, rfl⟩

theorem tick_promise_ne (i j now : Nat) (reply : StatusReply) (s : State) (h : j ≠ i) :
    (tick j now reply s).promises.get? i = s.promises.get? i := by
  unfold tick
  split
  · split
    · simp [List.getElem?_set_ne h]
    · simp [List.getElem?_set_ne h]
    · rfl
  · rfl

/-- An event that is no `start()` and no callback of promise `i` leaves a
cleared handle cleared and promise `i` as it is. -/
theorem step_idle (s : State) (e : Event) (i : Nat) (hs : e.isStart = false)
    (ht : e.isTick i = false) (hp : s.process = none) :
    (step s e).process = none ∧ (step s e).promises.get? i = s.promises.get? i := by
  cases e with
  | start rt now => simp [Event.isStart] at hs
  | stop => exact ⟨stop_process s, by rw [show step s Event.stop = stop s from rfl, stop_promises]⟩
  | clearLogs => exact ⟨hp, rfl⟩
  | line child text appendOk =>
    obtain ⟨h1, h2⟩ := onData_process child text appendOk s
    exact ⟨by rw [show step s (Event.line child text appendOk) = onData child text appendOk s
      from rfl, h1, hp], by rw [show step s (Event.line child text appendOk)
      = onData child text appendOk s from rfl, h2]⟩
  | tick j now reply =>
    have hj : j ≠ i := by simpa [Event.isTick] using ht
    refine ⟨?_, tick_promise_ne i j now reply s hj⟩
    rw [show step s (Event.tick j now reply) = tick j now reply s from rfl,
      (tick_process j now reply s).1, hp]

theorem run_idle (events : List Event) (i : Nat) :
    ∀ s : State, (∀ e ∈ events, Event.isStart e = false ∧ Event.isTick i e = false) →
      s.process = none →
      (run s events).process = none ∧ (run s events).promises.get? i = s.promises.get? i := by
  induction events with
  | nil => intro s _ hp; exact ⟨hp, rfl⟩
  | cons e es ih =>
    intro s hev hp
    have he := hev e (List.mem_cons_self _ _)
    obtain ⟨h1, h2⟩ := step_idle s e i he.1 he.2 hp
    obtain ⟨h3, h4⟩ := ih (step s e) (fun x hx => hev x (List.mem_cons_of_mem _ hx)) h1
    exact ⟨h3, by rw [show run s (e :: es) = run (step s e) es from rfl, h4, h2]⟩

/-- The listener of one attachment, fed the lines of `items` with appends that
do not throw: the first `linesToIgnore - n` are dropped when `n` lines were
counted before. -/
theorem onData_foldl (child : Nat) (items : List (String × Bool)) :
    ∀ (s : State) (n : Nat), s.lineCounts.get? child = some n →
      (truthy s.exodusLogPath = false ∨ ∀ x ∈ items, x.2 = true) →
      (items.foldl (fun st x => onData child x.1 x.2 st) s).logLines
        = s.logLines ++ (items.map Prod.fst).drop (linesToIgnore - n) := by
  induction items with
  | nil => intro s n _ _; simp
  | cons x items ih =>
    intro s n hn hok
    have hok1 : truthy s.exodusLogPath = false ∨ x.2 = true := by
      rcases hok with h | h
      · exact Or.inl h
      · exact Or.inr (h x (List.mem_cons_self _ _))
    obtain ⟨he, hc, hl⟩ := onData_ok child x.1 x.2 s n hn hok1
    have hok2 : truthy (onData child x.1 x.2 s).exodusLogPath = false ∨
        ∀ y ∈ items, y.2 = true := by
      rw [he]
      rcases hok with h | h
      · exact Or.inl h
      · exact Or.inr (fun y hy => h y (List.mem_cons_of_mem _ hy))
    rw [List.foldl_cons, ih _ _ hc hok2, hl]
    by_cases hlt : n < linesToIgnore
    · simp only [if_pos hlt, List.map_cons]
      have : linesToIgnore - n = (linesToIgnore - (n + 1)) + 1 := by omega
      rw [this, List.drop_succ_cons]
    · simp only [if_neg hlt, List.map_cons]
      have : linesToIgnore - n = 0 := by omega
      simp [this]

theorem sumLatency_succ (latency : Nat → Nat) (k : Nat) :
    sumLatency latency (k + 1) = sumLatency latency k + latency k := by
  simp [sumLatency, List.range_succ]

/-- The poll loop when no callback sees a ready endpoint or a cleared handle:
from request `k` on, with fuel for the time left, it ends in the timeout. -/
theorem pollFrom_timeout (T : Nat) (st : Nat → State) (reply : Nat → StatusReply)
    (latency : Nat → Nat) (startTime : Nat)
    (hproc : ∀ k, (st k).process.isSome = true) (hT : ∀ k, (st k).startTimeout = T)
    (hnot : ∀ k, isRunning (reply k) = false) :
    ∀ (fuel k issued : Nat), issued - startTime ≤ T + pollInterval →
      T + pollInterval < fuel * pollInterval + (issued - startTime) →
      issued = startTime + pollInterval * k + sumLatency latency k →
      ∃ j now, pollFrom st reply latency startTime fuel k issued
          = some (Promise.rejected (timeoutMessage T), now) ∧
        T < now - startTime ∧ now - startTime ≤ T + pollInterval + latency j ∧
        now = startTime + pollInterval * j + sumLatency latency (j + 1) := by
  intro fuel
  induction fuel with
  | zero =>
    intro k issued h1 h2 _
    omega
  | succ fuel ih =>
    intro k issued h1 h2 h3
    have hp : (st k).process.isNone = false := by
      have := hproc k
      cases hk : (st k).process <;> simp_all
    by_cases hgt : issued + latency k - startTime > T
    · refine ⟨k, issued + latency k, ?_, hgt, ?_, ?_⟩
      · simp only [pollFrom, checkIfRunning, hp, hnot k, hT k]
        simp [hgt]
      · omega
      · rw [sumLatency_succ]; omega
    · have hstep : pollFrom st reply latency startTime (fuel + 1) k issued
          = pollFrom st reply latency startTime fuel (k + 1)
              (issued + latency k + pollInterval) := by
        simp only [pollFrom, checkIfRunning, hp, hnot k, hT k]
        simp [hgt]
      rw [hstep]
      have hle : startTime ≤ issued := by omega
      apply ih
      · omega
      · have : (fuel + 1) * pollInterval = fuel * pollInterval + pollInterval := by ring
        omega
      · rw [sumLatency_succ]
        have : pollInterval * (k + 1) = pollInterval * k + pollInterval := by ring
        omega

theorem Obj.get_store (o : Obj) (k v k' : String) :
    (o.store k v).get k' = if k' = k then some v else o.get k' := by
  induction o with
  | nil =>
    by_cases h : k = k'
    · simp [Obj.store, Obj.get, h]
    · have h' : ¬ k' = k := fun e => h e.symm
      simp [Obj.store, Obj.get, h, h']
  | cons p o ih =>
    obtain ⟨k0, v0⟩ := p
    by_cases h0 : k0 = k
    · subst h0
      by_cases h : k0 = k'
      · simp [Obj.store, Obj.get, h]
      · have h' : ¬ k' = k0 := fun e => h e.symm
        simp [Obj.store, Obj.get, h, h']
    · by_cases h : k0 = k'
      · subst h
        simp [Obj.store, Obj.get, h0]
      · simp [Obj.store, Obj.get, h0, h, ih]

theorem Obj.get_set (o : Obj) (k v k' : String) :
    (o.set k v).get k'
      = if k = "__proto__" then o.get k' else if k' = k then some v else o.get k' := by
  unfold Obj.set
  by_cases hp : k = "__proto__"
  · rw [if_pos hp, if_pos hp]
  · rw [if_neg hp, if_neg hp, Obj.get_store]

theorem Obj.mem_keys_iff (o : Obj) (k : String) : k ∈ o.keys ↔ o.get k ≠ none := by
  induction o with
  | nil => simp [Obj.keys, Obj.get]
  | cons p o ih =>
    obtain ⟨k0, v0⟩ := p
    by_cases h : k0 = k
    · simp [Obj.keys, Obj.get, h]
    · have h' : ¬ k = k0 := fun e => h e.symm
      simp only [Obj.keys, List.map_cons, List.mem_cons, h', false_or, Obj.get, h, if_false]
      exact ih

/-- One round of the copy loop of `getEnvironment`. -/
theorem copy_step_get (parent acc : Obj) (key k : String) :
    Obj.get (match Obj.get parent key with
      | some v => Obj.set acc key v
      | none => acc) k
      = if key = k ∧ k ≠ "__proto__" ∧ parent.get k ≠ none then parent.get k
        else acc.get k := by
  by_cases hk : key = k
  · subst hk
    cases hg : parent.get key with
    | none => simp
    | some v =>
      by_cases hp : key = "__proto__"
      · simp [Obj.get_set, hp]
      · simp [Obj.get_set, hp]
  · have hk' : ¬ k = key := fun e => hk e.symm
    rw [if_neg (fun h => hk h.1)]
    cases hg : parent.get key with
    | none => rfl
    | some v =>
      show (acc.set key v).get k = acc.get k
      rw [Obj.get_set]
      by_cases hp : key = "__proto__"
      · rw [if_pos hp]
      · rw [if_neg hp, if_neg hk']

/-- The copy loop of `getEnvironment` over the keys `ks`, started from `acc`. -/
theorem copy_get (parent : Obj) (ks : List String) (k : String) :
    ∀ acc : Obj,
      (ks.foldl (fun env key =>
          match Obj.get parent key with
          | some v => Obj.set env key v
          | none => env) acc).get k
        = if k ≠ "__proto__" ∧ k ∈ ks ∧ parent.get k ≠ none then parent.get k
          else acc.get k := by
  induction ks with
  | nil => intro acc; simp
  | cons key ks ih =>
    intro acc
    rw [List.foldl_cons, ih, copy_step_get]
    by_cases hp : k = "__proto__"
    · simp [hp]
    · by_cases hg : parent.get k = none
      · simp [hg]
      · by_cases hm : k ∈ ks
        · simp [hp, hg, hm]
        · by_cases hk : key = k
          · simp [hp, hg, hk]
          · have hk' : ¬ k = key := fun e => hk e.symm
            simp [hp, hg, hm, hk, hk']

theorem copy_all_get (parent : Obj) (k : String) :
    Obj.get ((Obj.keys parent).foldl (fun env key =>
        match Obj.get parent key with
        | some v => Obj.set env key v
        | none => env) ([] : Obj)) k
      = if k = "__proto__" then none else parent.get k := by
  rw [copy_get]
  by_cases hp : k = "__proto__"
  · simp [hp, Obj.get]
  · by_cases h : parent.get k = none
    · simp [h, hp, Obj.get]
    · rw [if_pos ⟨hp, (Obj.mem_keys_iff parent k).mpr h, h⟩, if_neg hp]

theorem checkIfRunning_reject (s : State) (startTime now : Nat) (running : Bool) (m : String)
    (h : checkIfRunning s startTime now running = Check.reject m) :
    (s.process = none ∧ m = stoppedMessage) ∨
    (s.process.isSome = true ∧ m = timeoutMessage s.startTimeout ∧
      s.startTimeout < now - startTime) := by
  unfold checkIfRunning at h
  cases hp : s.process with
  | none =>
    left
    simp [hp] at h
    exact ⟨rfl, h.symm⟩
  | some child =>
    right
    simp only [hp, Option.isNone_some, Bool.false_eq_true, if_false] at h
    cases running with
    | true => simp at h
    | false =>
      simp only [Bool.false_eq_true, if_false] at h
      split at h
      · rename_i hgt
        injection h with h
        exact ⟨rfl, h.symm, hgt⟩
      · cases h

theorem start_startTimeout (rt : Runtime) (now : Nat) (s s' : State)
    (h : start rt now s = Except.ok s') : s'.startTimeout = s.startTimeout := by
  unfold start at h
  split at h
  · cases h
  · injection h with h
    subst h
    split <;> simp [setupLogs]

theorem step_startTimeout (s : State) (e : Event) : (step s e).startTimeout = s.startTimeout := by
  cases e with
  | start rt now =>
    simp only [step]
    split
    · rename_i s' hs
      exact start_startTimeout rt now s s' hs
    · rfl
  | stop => cases he : s.exitHandler <;> cases hp : s.process <;> simp [step, stop, clearLogs, he, hp]
  | clearLogs => rfl
  | line child text appendOk =>
    simp only [step, onData]
    split
    · rfl
    · split
      · rfl
      · split <;> split <;> rfl
  | tick i now reply => exact (tick_process i now reply s).2.2.2.1

theorem run_startTimeout (events : List Event) (s : State) :
    (run s events).startTimeout = s.startTimeout := by
  induction events generalizing s with
  | nil => rfl
  | cons e es ih =>
    show (run (step s e) es).startTimeout = s.startTimeout
    rw [ih, step_startTimeout]

theorem SparseArray.at_assign (a : SparseArray) (i j : Nat) (v : String) :
    (a.assign i v).at j = if j = i then some v else a.at j := by
  unfold SparseArray.assign SparseArray.at
  by_cases h : i < a.length
  · rw [if_pos h]
    by_cases hj : j = i
    · subst hj
      simp [h]
    · have hj' : ¬ i = j := fun e => hj e.symm
      simp [hj, hj', List.getElem?_set]
  · rw [if_neg h]
    have hle : a.length ≤ i := Nat.le_of_not_lt h
    rcases Nat.lt_trichotomy j i with hlt | heq | hgt
    · have hne : ¬ j = i := by omega
      rw [if_neg hne]
      by_cases hja : j < a.length
      · simp [List.getElem?_append, hja]
      · have h1 : j < (a ++ List.replicate (i - a.length) none).length := by
          simp; omega
        have h2 : a.length ≤ j := Nat.le_of_not_lt hja
        have h3 : j - a.length < i - a.length := by omega
        rw [List.get?_eq_getElem?, List.get?_eq_getElem?,
          List.getElem?_append_left h1, List.getElem?_append_right h2,
          List.getElem?_eq_none h2]
        simp [List.getElem?_replicate, h3]
    · subst heq
      have h1 : (a ++ List.replicate (j - a.length) none).length = j := by
        simp; omega
      rw [List.get?_eq_getElem?, List.getElem?_append_right (by omega)]
      simp [h1]
    · have hne : ¬ j = i := by omega
      rw [if_neg hne]
      have h1 : (a ++ List.replicate (i - a.length) none ++ [some v]).length ≤ j := by
        simp; omega
      rw [List.get?_eq_getElem?, List.get?_eq_getElem?, List.getElem?_eq_none h1,
        List.getElem?_eq_none (by omega)]

theorem SparseArray.assign_getLast (a : SparseArray) (i : Nat) (v : String)
    (h : a.getLast? ≠ some none) : (a.assign i v).getLast? ≠ some none := by
  unfold SparseArray.assign
  by_cases hi : i < a.length
  · rw [if_pos hi]
    intro hl
    rw [List.getLast?_eq_getElem?] at hl h
    simp only [List.length_set] at hl
    by_cases hlast : i = a.length - 1
    · rw [List.getElem?_set] at hl
      simp [hlast] at hl
    · rw [List.getElem?_set] at hl
      simp [hlast] at hl
      exact h hl
  · rw [if_neg hi]
    simp

theorem startsWith_of_append (name : List Char) (p q : String)
    (h : startsWith name (p ++ q) = true) : startsWith name p = true := by
  unfold startsWith at *
  rw [List.isPrefixOf_iff_prefix] at *
  rw [String.data_append] at h
  exact (List.prefix_append p.data q.data).trans h

theorem startsWith_spectron_of_arg (name : List Char)
    (h : startsWith name "--spectron-arg" = true) : startsWith name "--spectron-" = true :=
  startsWith_of_append name "--spectron-" "arg" h

theorem startsWith_spectron_of_env (name : List Char)
    (h : startsWith name "--spectron-env" = true) : startsWith name "--spectron-" = true :=
  startsWith_of_append name "--spectron-" "env" h

theorem startsWith_spectron_of_create_file (name : List Char)
    (h : startsWith name "--spectron-create-file" = true) :
    startsWith name "--spectron-" = true :=
  startsWith_of_append name "--spectron-" "create-file" h

theorem forEach_chromeArgs (other : String → Option Nat) (l : Launcher) (arg : String) :
    (Launcher.forEach other l arg).chromeArgs
      = l.chromeArgs ++ (if passedThrough arg = true then [arg] else []) := by
  unfold Launcher.forEach passedThrough
  cases h : splitAtEqualSign arg.data with
  | none => simp
  | some p =>
    obtain ⟨name, value⟩ := p
    dsimp only
    by_cases h1 : name = "--spectron-path".data
    · have hs : startsWith name "--spectron-" = true := by subst h1; decide
      rw [if_pos h1]
      simp [hs]
    · rw [if_neg h1]
      by_cases h2 : startsWith name "--spectron-arg" = true
      · have hs := startsWith_spectron_of_arg name h2
        rw [if_pos h2]
        cases toArrayIndex other ⟨name.drop 14⟩ <;> simp [hs]
      · rw [if_neg h2]
        by_cases h3 : startsWith name "--spectron-env" = true
        · have hs := startsWith_spectron_of_env name h3
          simp [h3, hs]
        · rw [if_neg h3]
          by_cases h4 : startsWith name "--spectron-create-file" = true
          · have hs := startsWith_spectron_of_create_file name h4
            simp [h4, hs]
          · rw [if_neg h4]
            by_cases h5 : startsWith name "--spectron-" = true
            · simp [h5]
            · simp [h5]

theorem forEach_executablePath (other : String → Option Nat) (l : Launcher) (arg : String) :
    (Launcher.forEach other l arg).executablePath
      = (match pathValue arg with
        | some v => some v
        | none => l.executablePath) := by
  unfold Launcher.forEach pathValue
  cases h : splitAtEqualSign arg.data with
  | none => simp
  | some p =>
    obtain ⟨name, value⟩ := p
    dsimp only
    by_cases h1 : name = "--spectron-path".data
    · simp [h1]
    · rw [if_neg h1, if_neg h1]
      dsimp only
      split
      · split <;> rfl
      · split
        · rfl
        · split
          · rfl
          · split <;> rfl

theorem forEach_appArgs (other : String → Option Nat) (l : Launcher) (arg : String) (i : Nat) :
    (Launcher.forEach other l arg).appArgs.at i
      = (match argValueAt other i arg with
        | some v => some v
        | none => l.appArgs.at i) := by
  unfold Launcher.forEach argValueAt
  cases h : splitAtEqualSign arg.data with
  | none => simp
  | some p =>
    obtain ⟨name, value⟩ := p
    dsimp only
    by_cases h1 : name = "--spectron-path".data
    · have hs : startsWith name "--spectron-arg" = false := by subst h1; decide
      rw [if_pos h1]
      simp [hs]
    · rw [if_neg h1]
      by_cases h2 : startsWith name "--spectron-arg" = true
      · rw [if_pos h2]
        cases ht : toArrayIndex other ⟨name.drop 14⟩ with
        | none => simp [h2]
        | some n =>
          dsimp only
          rw [SparseArray.at_assign]
          by_cases hin : i = n
          · simp [h2, hin]
          · have hin' : ¬ n = i := fun e => hin e.symm
            simp [h2, hin, hin']
      · rw [if_neg h2]
        have hc : ¬ (startsWith name "--spectron-arg" = true ∧
            toArrayIndex other ⟨name.drop 14⟩ = some i) := fun hh => h2 hh.1
        rw [if_neg hc]
        dsimp only
        split
        · rfl
        · split
          · rfl
          · split <;> rfl

theorem forEach_appArgs_getLast (other : String → Option Nat) (l : Launcher) (arg : String)
    (hl : l.appArgs.getLast? ≠ some none) :
    (Launcher.forEach other l arg).appArgs.getLast? ≠ some none := by
  unfold Launcher.forEach
  split
  · exact hl
  · split
    · exact hl
    · split
      · split
        · exact SparseArray.assign_getLast _ _ _ hl
        · exact hl
      · split
        · exact hl
        · split
          · exact hl
          · split <;> exact hl

theorem getLast_filterMap_snoc (f : String → Option String) (xs : List String) (a : String) :
    ((xs ++ [a]).filterMap f).getLast?
      = (match f a with
        | some v => some v
        | none => (xs.filterMap f).getLast?) := by
  rw [List.filterMap_append]
  cases h : f a with
  | none => simp [List.filterMap_cons, h]
  | some v => simp [List.filterMap_cons, h]

/-- The loop of the launcher over the arguments `args`. -/
theorem forEach_foldl (other : String → Option Nat) (args : List String) :
    (args.foldl (Launcher.forEach other) Launcher.init).chromeArgs
      = args.filter (fun a => passedThrough a) ∧
    (∀ i, (args.foldl (Launcher.forEach other) Launcher.init).appArgs.at i
      = (args.filterMap (argValueAt other i)).getLast?) ∧
    (args.foldl (Launcher.forEach other) Launcher.init).appArgs.getLast? ≠ some none ∧
    (args.foldl (Launcher.forEach other) Launcher.init).executablePath
      = (args.filterMap pathValue).getLast? := by
  induction args using List.reverseRecOn with
  | nil => simp [Launcher.init, SparseArray.at]
  | append_singleton xs a ih =>
    obtain ⟨h1, h2, h3, h4⟩ := ih
    rw [List.foldl_append, List.foldl_cons, List.foldl_nil]
    refine ⟨?_, ?_, ?_, ?_⟩
    · rw [forEach_chromeArgs, h1, List.filter_append]
      by_cases hp : passedThrough a = true
      · simp [hp]
      · simp [hp]
    · intro i
      rw [forEach_appArgs, h2 i, getLast_filterMap_snoc]
    · exact forEach_appArgs_getLast other _ a h3
    · rw [forEach_executablePath, h4, getLast_filterMap_snoc]

theorem splitAtEqualSign_append (name value : List Char) (h : '=' ∉ name) :
    splitAtEqualSign (name ++ '=' :: value) = some (name, value) := by
  induction name with
  | nil => simp [splitAtEqualSign]
  | cons c cs ih =>
    have hc : ¬ c = '=' := fun e => h (by simp [e])
    have hcs : '=' ∉ cs := fun e => h (List.mem_cons_of_mem _ e)
    simp [splitAtEqualSign, hc, ih hcs]

/-- The argument `--spectron-arg<digits>=<value>` as the loop reads it. -/
theorem argName_digits (other : String → Option Nat) (digits value : List Char)
    (hd : digits.all Char.isDigit = true) :
    splitAtEqualSign (String.data ⟨"--spectron-arg".data ++ digits ++ '=' :: value⟩)
      = some ("--spectron-arg".data ++ digits, value) ∧
    startsWith ("--spectron-arg".data ++ digits) "--spectron-arg" = true ∧
    toArrayIndex other ⟨("--spectron-arg".data ++ digits).drop 14⟩
      = (if decimalValue digits < 4294967295 then some (decimalValue digits) else none) := by
  have hne : '=' ∉ "--spectron-arg".data ++ digits := by
    intro hmem
    rcases List.mem_append.mp hmem with h | h
    · revert h
      decide
    · have := List.all_eq_true.mp hd '=' h
      revert this
      decide
  have hdrop : ("--spectron-arg".data ++ digits).drop 14 = digits :=
    List.drop_left' (by decide)
  refine ⟨splitAtEqualSign_append _ value hne, ?_, ?_⟩
  · unfold startsWith
    rw [List.isPrefixOf_iff_prefix]
    exact List.prefix_append _ _
  · rw [hdrop]
    unfold toArrayIndex
    simp only [hd, if_true]

/-! ## The claims -/

/-- C1: in every state with a process handle, whatever became of the promise of
the first `start()`, a call of `start()` throws `ChromeDriver already started`
and leaves the whole state as it was: no child is spawned, no exit handler is
registered, and the handle, the exit handler and the log buffer are unchanged. -/
theorem start_throws_when_started (rt : Runtime) (now : Nat) (s : State)
    (h : s.process.isSome = true) :
    start rt now s = Except.error "ChromeDriver already started" ∧
    step s (Event.start rt now) = s := by
  have hs : start rt now s = Except.error "ChromeDriver already started" := by
    unfold start
    rw [if_pos h]
  refine ⟨hs, ?_⟩
  simp only [step, hs]

theorem start_throws_when_started_witness :
    exampleStarted.process.isSome = true ∧
    start exampleRuntime 7 exampleStarted = Except.error "ChromeDriver already started" ∧
    step exampleStarted (Event.start exampleRuntime 7) = exampleStarted :=
  ⟨by decide, start_throws_when_started exampleRuntime 7 exampleStarted (by decide)⟩

/-- C2, as stated, fails: when `stop()` and then `start()` are called while the
promise of the first `start()` is pending, its next callback sees the handle of
the new child; with a ready endpoint the promise is fulfilled, and with a
failing request past the start timeout it is rejected with the timeout error. -/
theorem restart_fulfils_stopped_start :
    exampleRestarted.promises.get? 0 = some (Promise.pending 0) ∧
    (tick 0 50 (StatusReply.value true) exampleRestarted).promises.get? 0
      = some Promise.fulfilled ∧
    (tick 0 500 StatusReply.failure exampleRestarted).promises.get? 0
      = some (Promise.rejected "ChromeDriver did not start within 200ms") := by
  decide

/-- C2, amended: when `stop()` is called while promise `i` is pending and no
`start()` is called before the next callback of its poll (whatever else happens
in between), that callback rejects the promise with `ChromeDriver has been
stopped`, whatever the clock reads and whatever the status endpoint answered;
that message is no timeout message, and the promise is not fulfilled. -/
theorem stop_rejects_pending_start (s : State) (events : List Event) (i startTime now : Nat)
    (reply : StatusReply)
    (h : s.promises.get? i = some (Promise.pending startTime))
    (hev : ∀ e ∈ events, Event.isStart e = false ∧ Event.isTick i e = false) :
    checkIfRunning (run (stop s) events) startTime now (isRunning reply)
      = Check.reject stoppedMessage ∧
    (tick i now reply (run (stop s) events)).promises.get? i
      = some (Promise.rejected stoppedMessage) ∧
    stoppedMessage = "ChromeDriver has been stopped" ∧
    (∀ T : Nat, stoppedMessage ≠ timeoutMessage T) ∧
    (tick i now reply (run (stop s) events)).promises.get? i ≠ some Promise.fulfilled := by
  obtain ⟨hp, hq⟩ := run_idle events i (stop s) hev (stop_process s)
  rw [stop_promises, h] at hq
  generalize run (stop s) events = t at hp hq ⊢
  have hc : checkIfRunning t startTime now (isRunning reply)
      = Check.reject stoppedMessage := by
    unfold checkIfRunning
    simp [hp]
  have hlen : i < t.promises.length := by
    rcases List.get?_eq_some.mp hq with ⟨hl, _⟩
    exact hl
  have ht : (tick i now reply t).promises.get? i
      = some (Promise.rejected stoppedMessage) := by
    unfold tick
    rw [hq]
    dsimp only
    rw [hc]
    simp [hlen]
  refine ⟨hc, ht, rfl, stoppedMessage_ne_timeoutMessage, ?_⟩
  rw [ht]
  simp

theorem stop_rejects_pending_start_witness :
    exampleStarted.promises.get? 0 = some (Promise.pending 0) ∧
    checkIfRunning (run (stop exampleStarted) [Event.clearLogs, Event.line 0 "late" true])
      0 50 (isRunning (StatusReply.value true)) = Check.reject stoppedMessage ∧
    (tick 0 50 (StatusReply.value true)
      (run (stop exampleStarted) [Event.clearLogs, Event.line 0 "late" true])).promises.get? 0
      = some (Promise.rejected stoppedMessage) ∧
    stoppedMessage = "ChromeDriver has been stopped" ∧
    (∀ T : Nat, stoppedMessage ≠ timeoutMessage T) ∧
    (tick 0 50 (StatusReply.value true)
      (run (stop exampleStarted) [Event.clearLogs, Event.line 0 "late" true])).promises.get? 0
      ≠ some Promise.fulfilled :=
  ⟨by decide,
    stop_rejects_pending_start exampleStarted [Event.clearLogs, Event.line 0 "late" true]
      0 0 50 (StatusReply.value true) (by decide) (by decide)⟩

/-- C4, as stated, fails, in two ways.  After a restart the listener of the
killed child is still attached, and a line it delivers during the run of the
new child is retained: with the lines `N1`, `N2`, `N3` of the new child the
logs are `["", "N3"]`.  And when a raw-capture path is set and an append throws,
the line is not retained: with `BANNER1`, `BANNER2`, `Ready` the logs are
empty. -/
theorem getLogs_differs_from_drop_two :
    getLogs (run exampleDriver
      [Event.start exampleRuntime 0, Event.line 0 "B1" true, Event.line 0 "B2" true,
        Event.stop, Event.start exampleRuntime 10,
        Event.line 1 "N1" true, Event.line 1 "N2" true, Event.line 0 "" true,
        Event.line 1 "N3" true]) = ["", "N3"] ∧
    (["N1", "N2", "N3"] : List String).drop 2 = ["N3"] ∧
    (step exampleLogged (Event.start exampleRuntime 0)).exodusLogPath
      = some "logs/chromedriver-exodus.log" ∧
    getLogs (run exampleLogged
      [Event.start exampleRuntime 0, Event.line 0 "BANNER1" true,
        Event.line 0 "BANNER2" true, Event.line 0 "Ready" false]) = [] ∧
    (["BANNER1", "BANNER2", "Ready"] : List String).drop 2 = ["Ready"] := by
  decide

/-- C4, amended: after `setupLogs`, when only the listener of the child just
attached has run, on the lines of `items` in order, nothing cleared the buffer,
and no append to the raw-capture file threw (no raw-capture path is set, or
every append succeeded), `getLogs()` is those lines without the first two, in
order (empty when there are at most two). -/
theorem getLogs_drops_first_two (s : State) (items : List (String × Bool))
    (hok : truthy s.exodusLogPath = false ∨ ∀ x ∈ items, x.2 = true) :
    getLogs (items.foldl (fun st x => onData s.lineCounts.length x.1 x.2 st) (setupLogs s))
      = (items.map Prod.fst).drop 2 := by
  have h := onData_foldl s.lineCounts.length items (setupLogs s) 0 (by simp [setupLogs])
    (by simpa [setupLogs] using hok)
  simpa [getLogs, setupLogs, linesToIgnore] using h

theorem getLogs_drops_first_two_witness :
    (truthy (stop (step exampleLogged (Event.start exampleRuntime 0))).exodusLogPath = false ∨
      ∀ x ∈ [("BANNER1", true), ("BANNER2", true), ("Starting on port 9999", true),
        ("Ready", true)], x.2 = true) ∧
    getLogs ([("BANNER1", true), ("BANNER2", true), ("Starting on port 9999", true),
        ("Ready", true)].foldl
        (fun st x => onData (stop (step exampleLogged
          (Event.start exampleRuntime 0))).lineCounts.length x.1 x.2 st)
        (setupLogs (stop (step exampleLogged (Event.start exampleRuntime 0)))))
      = ([("BANNER1", true), ("BANNER2", true), ("Starting on port 9999", true),
        ("Ready", true)].map Prod.fst).drop 2 :=
  ⟨Or.inr (by decide),
    getLogs_drops_first_two (stop (step exampleLogged (Event.start exampleRuntime 0)))
      [("BANNER1", true), ("BANNER2", true), ("Starting on port 9999", true), ("Ready", true)]
      (Or.inr (by decide))⟩

/-- C8: `stop()` is a total function of the state; after it there is no process
handle, no exit handler and an empty log buffer, and a second `stop()` changes
nothing more; in a state reached from a fresh supervisor no exit handler of the
supervisor is left registered either. -/
theorem stop_idempotent (s : State) (host : String) (port : Nat) (nodePath : String)
    (startTimeout : Nat) (workingDirectory : String) (chromeDriverLogPath : Option String)
    (path : String) (events : List Event) :
    (stop s).process = none ∧ (stop s).exitHandler = none ∧ getLogs (stop s) = [] ∧
    stop (stop s) = stop s ∧
    (stop (run (ChromeDriver host port nodePath startTimeout workingDirectory
      chromeDriverLogPath path) events)).exitListeners = [] := by
  refine ⟨stop_process s, ?_, ?_, ?_, ?_⟩
  · cases he : s.exitHandler <;> cases hp : s.process <;> simp [stop, clearLogs, he, hp]
  · cases he : s.exitHandler <;> cases hp : s.process <;> simp [stop, clearLogs, getLogs, he, hp]
  · cases he : s.exitHandler <;> cases hp : s.process <;> simp [stop, clearLogs, he, hp]
  · have h := ExitInv_stop _ (ExitInv_run events _ (ExitInv_init host port nodePath startTimeout
      workingDirectory chromeDriverLogPath path))
    rw [h.1, h.2, stop_process]
    rfl

/-- C9: in every state reached from a fresh supervisor by calls of `start()`,
`stop()`, `clearLogs()`, arriving lines and poll callbacks, the exit handlers
the supervisor has registered are one when it holds a process handle and none
when it holds none; they are never more than one. -/
theorem one_exit_handler_iff_handle (host : String) (port : Nat) (nodePath : String)
    (startTimeout : Nat) (workingDirectory : String) (chromeDriverLogPath : Option String)
    (path : String) (events : List Event) :
    (run (ChromeDriver host port nodePath startTimeout workingDirectory
      chromeDriverLogPath path) events).exitListeners.length
      = (if (run (ChromeDriver host port nodePath startTimeout workingDirectory
          chromeDriverLogPath path) events).process.isSome then 1 else 0) ∧
    (run (ChromeDriver host port nodePath startTimeout workingDirectory
      chromeDriverLogPath path) events).exitListeners.length ≤ 1 := by
  have h := ExitInv_run events _ (ExitInv_init host port nodePath startTimeout
    workingDirectory chromeDriverLogPath path)
  obtain ⟨h1, h2⟩ := h
  rw [h1, h2]
  cases (run (ChromeDriver host port nodePath startTimeout workingDirectory
      chromeDriverLogPath path) events).process <;> simp

/-- C5, as stated, fails: on `win32` a parent environment that defines
`SPECTRON_NODE_PATH` does not keep its value, and only one key is added. -/
theorem getEnvironment_overwrites_inherited :
    Obj.get exampleWindows.env "SPECTRON_NODE_PATH" = some "C:/old/node.exe" ∧
    Obj.get (getEnvironment exampleWindows) "SPECTRON_NODE_PATH" = some "C:/node/node.exe" ∧
    Obj.keys (getEnvironment exampleWindows) = ["SPECTRON_NODE_PATH", "SPECTRON_LAUNCHER_PATH"] := by
  decide

/-- C5, amended: of every key other than `__proto__`: it is a key of the map
returned by `getEnvironment()` exactly when it is a key of the parent
environment or, on `win32`, one of `SPECTRON_NODE_PATH` and
`SPECTRON_LAUNCHER_PATH`; on `win32` these two keys hold the interpreter's path
and the launcher's path, whatever the parent held for them, and every other key
holds the parent's value; on every other platform every key holds the parent's
value and no key is added.  (The key `__proto__` itself is never stored.) -/
theorem getEnvironment_spec (rt : Runtime) (k : String) :
    Obj.get (getEnvironment rt) k =
      (if rt.platform = "win32" then
        (if k = "SPECTRON_LAUNCHER_PATH" then some rt.launcherPath
         else if k = "SPECTRON_NODE_PATH" then some rt.execPath
         else if k = "__proto__" then none
         else Obj.get rt.env k)
       else if k = "__proto__" then none
       else Obj.get rt.env k) ∧
    (k ∈ Obj.keys (getEnvironment rt) ↔
      ((k ∈ Obj.keys rt.env ∧ k ≠ "__proto__") ∨
        (rt.platform = "win32" ∧ (k = "SPECTRON_NODE_PATH" ∨ k = "SPECTRON_LAUNCHER_PATH")))) := by
  have hl : ¬ ("SPECTRON_LAUNCHER_PATH" : String) = "__proto__" := by decide
  have hn : ¬ ("SPECTRON_NODE_PATH" : String) = "__proto__" := by decide
  have hget : Obj.get (getEnvironment rt) k =
      (if rt.platform = "win32" then
        (if k = "SPECTRON_LAUNCHER_PATH" then some rt.launcherPath
         else if k = "SPECTRON_NODE_PATH" then some rt.execPath
         else if k = "__proto__" then none
         else Obj.get rt.env k)
       else if k = "__proto__" then none
       else Obj.get rt.env k) := by
    unfold getEnvironment
    by_cases hw : rt.platform = "win32"
    · simp only [hw, if_true, Obj.get_set, copy_all_get, if_neg hl, if_neg hn]
    · simp only [hw, if_false, copy_all_get]
  refine ⟨hget, ?_⟩
  rw [Obj.mem_keys_iff, Obj.mem_keys_iff, hget]
  by_cases hw : rt.platform = "win32"
  · by_cases h1 : k = "SPECTRON_LAUNCHER_PATH"
    · simp [hw, h1]
    · by_cases h2 : k = "SPECTRON_NODE_PATH"
      · simp [hw, h2]
      · by_cases hp : k = "__proto__"
        · simp [hw, h1, h2, hp]
        · simp [hw, h1, h2, hp]
  · by_cases hp : k = "__proto__"
    · simp [hw, hp]
    · simp [hw, hp]

/-- C7: for the log path `dir/a.b.log` the path `start()` derives is
`dir/a-exodus.log`: the directory and the extension `.log` are kept, but the
file name is built from `a`, what precedes the first dot, and not from `a.b`,
the base name without its extension. -/
theorem exodusLogPath_loses_inner_dot :
    dirname "dir/a.b.log" = "dir" ∧ basename "dir/a.b.log" = "a.b.log" ∧
    extname "dir/a.b.log" = ".log" ∧
    deriveExodusLogPath "dir/a.b.log" = "dir/a-exodus.log" ∧
    deriveExodusLogPath "dir/a.b.log" ≠ "dir/a.b-exodus.log" ∧
    (step (ChromeDriver "127.0.0.1" 9515 "node" 200 "/work" (some "dir/a.b.log")
        "chromedriver.js") (Event.start exampleRuntime 0)).exodusLogPath
      = some "dir/a-exodus.log" := by
  decide

/-- C3, as stated, fails: with a start timeout of 200 ms and status requests
that take 50 ms each and never report ready, the callbacks run at 50, 200 and
350 ms, and the promise is rejected at 350 ms, later than 200 + 100 ms. -/
theorem timeout_later_than_one_interval :
    exampleStarted.process.isSome = true ∧ exampleStarted.startTimeout = 200 ∧
    waitUntilRunning (fun _ => exampleStarted) (fun _ => StatusReply.failure) (fun _ => 50) 0 4
      = some (Promise.rejected "ChromeDriver did not start within 200ms", 350) ∧
    ¬ (350 - 0 ≤ 200 + pollInterval) := by
  decide

/-- C3, amended: when no callback sees a ready endpoint or a cleared handle, the
promise of `waitUntilRunning` is rejected with `ChromeDriver did not start
within <T>ms`; the rejection comes in the callback of some request `k`, when
the time elapsed is more than `T` and at most `T` plus one poll interval plus
the time request `k` took, the clock then reading the start time plus `k`
intervals plus the time requests `0` to `k` took. -/
theorem timeout_rejects_within_bounds (T : Nat) (st : Nat → State) (reply : Nat → StatusReply)
    (latency : Nat → Nat) (startTime fuel : Nat)
    (hproc : ∀ k, (st k).process.isSome = true) (hT : ∀ k, (st k).startTimeout = T)
    (hnot : ∀ k, isRunning (reply k) = false) (hfuel : T / pollInterval + 2 ≤ fuel) :
    ∃ k now, waitUntilRunning st reply latency startTime fuel
        = some (Promise.rejected ("ChromeDriver did not start within " ++ toString T ++ "ms"),
            now) ∧
      T < now - startTime ∧ now - startTime ≤ T + pollInterval + latency k ∧
      now = startTime + pollInterval * k + sumLatency latency (k + 1) := by
  have h := pollFrom_timeout T st reply latency startTime hproc hT hnot fuel 0 startTime
    (by omega)
    (by simp only [pollInterval] at *; omega)
    (by simp [sumLatency])
  exact h

theorem timeout_rejects_within_bounds_witness :
    ∃ k now, waitUntilRunning (fun _ => exampleStarted) (fun _ => StatusReply.failure)
        (fun _ => 50) 0 4
        = some (Promise.rejected ("ChromeDriver did not start within " ++ toString 200 ++ "ms"),
            now) ∧
      200 < now - 0 ∧ now - 0 ≤ 200 + pollInterval + (fun _ => 50) k ∧
      now = 0 + pollInterval * k + sumLatency (fun _ => 50) (k + 1) :=
  timeout_rejects_within_bounds 200 (fun _ => exampleStarted) (fun _ => StatusReply.failure)
    (fun _ => 50) 0 4
    (fun _ => by show exampleStarted.process.isSome = true; decide)
    (fun _ => by show exampleStarted.startTimeout = 200; decide)
    (fun _ => by show isRunning StatusReply.failure = false; decide)
    (by decide)

/-- C6, as stated, fails: after the promise of `start()` is rejected with the
timeout error, the supervisor still holds the process handle and its exit
handler, and a following `start()` throws `ChromeDriver already started`. -/
theorem timeout_leaves_handle :
    exampleTimedOut.promises.get? 0
      = some (Promise.rejected "ChromeDriver did not start within 200ms") ∧
    exampleTimedOut.process = some 0 ∧ exampleTimedOut.exitHandler = some 0 ∧
    exampleTimedOut.exitListeners = [0] ∧
    step exampleTimedOut (Event.start exampleRuntime 600) = exampleTimedOut ∧
    start exampleRuntime 600 exampleTimedOut = Except.error "ChromeDriver already started" := by
  refine ⟨by decide, by decide, by decide, by decide, by decide, ?_⟩
  rfl

/-- C6, amended: in a state reached from a fresh supervisor, when a poll callback
rejects the pending promise `i`, either the message is `ChromeDriver has been
stopped`, the supervisor holds no process handle and no exit handler, none is
registered, and a following `start()` succeeds; or the message is the timeout
message, the supervisor still holds its handle and its one registered exit
handler, and a following `start()` throws `ChromeDriver already started`. -/
theorem rejected_start_handle (host : String) (port : Nat) (nodePath : String)
    (startTimeout : Nat) (workingDirectory : String) (chromeDriverLogPath : Option String)
    (path : String) (events : List Event) (rt : Runtime) (i now later startTime : Nat)
    (reply : StatusReply) (message : String)
    (hp : (run (ChromeDriver host port nodePath startTimeout workingDirectory
      chromeDriverLogPath path) events).promises.get? i = some (Promise.pending startTime))
    (hr : (tick i now reply (run (ChromeDriver host port nodePath startTimeout workingDirectory
      chromeDriverLogPath path) events)).promises.get? i = some (Promise.rejected message)) :
    (message = "ChromeDriver has been stopped" ∧
      (tick i now reply (run (ChromeDriver host port nodePath startTimeout workingDirectory
        chromeDriverLogPath path) events)).process = none ∧
      (tick i now reply (run (ChromeDriver host port nodePath startTimeout workingDirectory
        chromeDriverLogPath path) events)).exitHandler = none ∧
      (tick i now reply (run (ChromeDriver host port nodePath startTimeout workingDirectory
        chromeDriverLogPath path) events)).exitListeners = [] ∧
      ∃ s', start rt later (tick i now reply (run (ChromeDriver host port nodePath startTimeout
        workingDirectory chromeDriverLogPath path) events)) = Except.ok s') ∨
    (message = "ChromeDriver did not start within " ++ toString startTimeout ++ "ms" ∧
      startTimeout < now - startTime ∧
      (tick i now reply (run (ChromeDriver host port nodePath startTimeout workingDirectory
        chromeDriverLogPath path) events)).process.isSome = true ∧
      (tick i now reply (run (ChromeDriver host port nodePath startTimeout workingDirectory
        chromeDriverLogPath path) events)).exitHandler.isSome = true ∧
      (tick i now reply (run (ChromeDriver host port nodePath startTimeout workingDirectory
        chromeDriverLogPath path) events)).exitListeners.length = 1 ∧
      start rt later (tick i now reply (run (ChromeDriver host port nodePath startTimeout
        workingDirectory chromeDriverLogPath path) events))
        = Except.error "ChromeDriver already started") := by
  generalize hs : run (ChromeDriver host port nodePath startTimeout workingDirectory
      chromeDriverLogPath path) events = s at hp hr ⊢
  have hinv : ExitInv s := by
    rw [← hs]
    exact ExitInv_run events _ (ExitInv_init host port nodePath startTimeout
      workingDirectory chromeDriverLogPath path)
  have hT : s.startTimeout = startTimeout := by
    rw [← hs, run_startTimeout]
    rfl
  obtain ⟨hl, he⟩ := hinv
  obtain ⟨t1, t2, t3, _, _⟩ := tick_process i now reply s
  have hlen : i < s.promises.length := by
    rcases List.get?_eq_some.mp hp with ⟨h, _⟩
    exact h
  have hc : checkIfRunning s startTime now (isRunning reply) = Check.reject message := by
    unfold tick at hr
    rw [hp] at hr
    dsimp only at hr
    cases hcheck : checkIfRunning s startTime now (isRunning reply) with
    | resolve =>
      rw [hcheck] at hr
      simp [hlen] at hr
    | reject m =>
      rw [hcheck] at hr
      simp [hlen] at hr
      rw [hr]
    | again =>
      rw [hcheck] at hr
      dsimp only at hr
      rw [hp] at hr
      cases hr
  rcases checkIfRunning_reject s startTime now (isRunning reply) message hc with
    ⟨hnone, hm⟩ | ⟨hsome, hm, hgt⟩
  · left
    rw [t1, t2, t3, hl, he, hnone]
    refine ⟨hm, rfl, rfl, rfl, ?_⟩
    have hidle : (tick i now reply s).process = none := by rw [t1, hnone]
    obtain ⟨s', hs', _⟩ := start_ok_of_idle rt later (tick i now reply s) hidle
    exact ⟨s', hs'⟩
  · right
    rw [t1, t2, t3, hl, he]
    rw [hT] at hm hgt
    refine ⟨hm, hgt, hsome, hsome, ?_, ?_⟩
    · cases hproc : s.process with
      | none => rw [hproc] at hsome; cases hsome
      | some child => rfl
    · unfold start
      rw [t1, if_pos hsome]

theorem rejected_start_handle_witness :
    (tick 0 500 StatusReply.failure (run (ChromeDriver "127.0.0.1" 9515 "node" 200 "/work" none
      "chromedriver.js") [Event.start exampleRuntime 0])).promises.get? 0
      = some (Promise.rejected "ChromeDriver did not start within 200ms") ∧
    ((("ChromeDriver did not start within 200ms" : String) = "ChromeDriver has been stopped" ∧
      (tick 0 500 StatusReply.failure (run (ChromeDriver "127.0.0.1" 9515 "node" 200 "/work" none
        "chromedriver.js") [Event.start exampleRuntime 0])).process = none ∧
      (tick 0 500 StatusReply.failure (run (ChromeDriver "127.0.0.1" 9515 "node" 200 "/work" none
        "chromedriver.js") [Event.start exampleRuntime 0])).exitHandler = none ∧
      (tick 0 500 StatusReply.failure (run (ChromeDriver "127.0.0.1" 9515 "node" 200 "/work" none
        "chromedriver.js") [Event.start exampleRuntime 0])).exitListeners = [] ∧
      ∃ s', start exampleRuntime 600 (tick 0 500 StatusReply.failure (run (ChromeDriver
        "127.0.0.1" 9515 "node" 200 "/work" none "chromedriver.js")
        [Event.start exampleRuntime 0])) = Except.ok s') ∨
    (("ChromeDriver did not start within 200ms" : String)
        = "ChromeDriver did not start within " ++ toString 200 ++ "ms" ∧
      200 < 500 - 0 ∧
      (tick 0 500 StatusReply.failure (run (ChromeDriver "127.0.0.1" 9515 "node" 200 "/work" none
        "chromedriver.js") [Event.start exampleRuntime 0])).process.isSome = true ∧
      (tick 0 500 StatusReply.failure (run (ChromeDriver "127.0.0.1" 9515 "node" 200 "/work" none
        "chromedriver.js") [Event.start exampleRuntime 0])).exitHandler.isSome = true ∧
      (tick 0 500 StatusReply.failure (run (ChromeDriver "127.0.0.1" 9515 "node" 200 "/work" none
        "chromedriver.js") [Event.start exampleRuntime 0])).exitListeners.length = 1 ∧
      start exampleRuntime 600 (tick 0 500 StatusReply.failure (run (ChromeDriver "127.0.0.1"
        9515 "node" 200 "/work" none "chromedriver.js") [Event.start exampleRuntime 0]))
        = Except.error "ChromeDriver already started")) :=
  ⟨by decide,
    rejected_start_handle "127.0.0.1" 9515 "node" 200 "/work" none "chromedriver.js"
      [Event.start exampleRuntime 0] exampleRuntime 0 500 600 0 StatusReply.failure
      "ChromeDriver did not start within 200ms" (by decide) (by decide)⟩

/-- C10, as stated, fails: the argument `--spectron-foo=bar` has none of the
four special prefixes, and it is not passed through to the target. -/
theorem launcher_drops_other_spectron_argument :
    startsWith "--spectron-foo=bar".data "--spectron-path=" = false ∧
    startsWith "--spectron-foo=bar".data "--spectron-arg" = false ∧
    startsWith "--spectron-foo=bar".data "--spectron-env" = false ∧
    startsWith "--spectron-foo=bar".data "--spectron-create-file=" = false ∧
    ∀ other : String → Option Nat,
      (Launcher.parse other ["node", "launcher.js", "--spectron-foo=bar", "--verbose"]).args
        = [some "--verbose"] := by
  refine ⟨by decide, by decide, by decide, by decide, ?_⟩
  intro other
  rfl

/-- C10, amended: the arguments handed to the target are the array `appArgs`
followed by the arguments that are passed through, verbatim and in order: those
without `=` and those whose name, the text before the first `=`, does not begin
with `--spectron-`.  Every argument `<name>=<value>` whose name begins with
`--spectron-` (the four special forms and any other) is consumed.  The element
`i` of `appArgs` is the value of the last `--spectron-arg<N>=` argument whose
`<N>` denotes the index `i`, a hole when there is none, and `appArgs` does not
end in a hole.  A run of decimal digits `<N>` denotes the index `N` when `N` is
below `2^32 - 1`, and no index when it is not.  The executable is the value of
the last `--spectron-path=` argument. -/
theorem launcher_args_spec (other : String → Option Nat) (argv : List String) :
    (Launcher.parse other argv).args
      = (Launcher.parse other argv).appArgs
        ++ ((argv.drop 2).filter (fun a => passedThrough a)).map some ∧
    (∀ name value : List Char, '=' ∉ name → startsWith name "--spectron-" = true →
      passedThrough ⟨name ++ '=' :: value⟩ = false) ∧
    (∀ i, (Launcher.parse other argv).appArgs.at i
      = ((argv.drop 2).filterMap (argValueAt other i)).getLast?) ∧
    (∀ digits value : List Char, digits.all Char.isDigit = true →
      decimalValue digits < 4294967295 →
      argValueAt other (decimalValue digits)
        ⟨"--spectron-arg".data ++ digits ++ '=' :: value⟩ = some ⟨value⟩) ∧
    (∀ (digits value : List Char) (i : Nat), digits.all Char.isDigit = true →
      4294967295 ≤ decimalValue digits →
      argValueAt other i ⟨"--spectron-arg".data ++ digits ++ '=' :: value⟩ = none) ∧
    (Launcher.parse other argv).appArgs.getLast? ≠ some none ∧
    (Launcher.parse other argv).executablePath
      = ((argv.drop 2).filterMap pathValue).getLast? := by
  obtain ⟨h1, h2, h3, h4⟩ := forEach_foldl other (argv.drop 2)
  refine ⟨?_, ?_, h2, ?_, ?_, h3, h4⟩
  · unfold Launcher.args
    rw [show (Launcher.parse other argv).chromeArgs
      = (argv.drop 2).filter (fun a => passedThrough a) from h1]
  · intro name value hne hs
    unfold passedThrough
    simp only [splitAtEqualSign_append name value hne, hs]
    rfl
  · intro digits value hd hlt
    obtain ⟨hsplit, hstart, hindex⟩ := argName_digits other digits value hd
    unfold argValueAt
    simp only [hsplit, hstart, hindex, hlt, if_true, true_and]
  · intro digits value i hd hge
    obtain ⟨hsplit, hstart, hindex⟩ := argName_digits other digits value hd
    have hnot : ¬ decimalValue digits < 4294967295 := Nat.not_lt.mpr hge
    unfold argValueAt
    simp only [hsplit, hstart, hindex, hnot, if_false, true_and]
    simp

end Spectron
